import Mathlib

/-!
Shallow embedding of the code-review engine in `src/app.py`:

* `format_checkstyle_output` (app.py lines 30-52): parses raw checkstyle
  lines of the form `[WARN] path:line:col: message`, groups indentation
  messages by line number, and renders a report.
* `best_practices_review` (app.py lines 54-104): evaluates seven wired
  regex rules against a Java code sample, emits one suggestion per
  triggered rule, applies the rewrites of rules 2, 3 and 7 to an
  accumulating copy of the text, and computes a deduction-based score.

Python regular expressions are hand-compiled to executable functions on
`List Char`.  For every pattern used by the source the quantifiers are
either over disjoint character classes (so greedy matching is maximal
munch and needs no backtracking) or the necessary backtracking (the lazy
path group of the checkstyle pattern, the greedy groups of the rule-2
loop rewrite) is implemented explicitly.  The embedding covers the ASCII
fragment of Python's `\w`, `\s`, `\d` and `str.lower`, which is the
fragment exercised by Java source text.
-/

set_option maxRecDepth 40000

namespace AppEmbed

/-- ASCII fragment of Python regex class `\w` : letters, digits, underscore. -/
def isWordChar (c : Char) : Bool := c.isAlphanum || c = '_'

/-- ASCII fragment of Python regex class `\s` : space, tab, newline, CR, VT, FF. -/
def isWsChar (c : Char) : Bool :=
  c = ' ' || c = '\t' || c = '\n' || c = '\r' || c = '\x0b' || c = '\x0c'

/-- Character class `[A-Z_]` of the rule-1 pattern. -/
def isUpperScoreChar (c : Char) : Bool := c.isUpper || c = '_'

/-- ASCII fragment of Python regex class `\d`. -/
def isDigitChar (c : Char) : Bool := c.isDigit

/-- Match a literal sequence at the head of the input, returning the rest. -/
def dropLit : List Char → List Char → Option (List Char)
  | [], s => some s
  | _ :: _, [] => none
  | c :: cs, d :: ds => if c = d then dropLit cs ds else none

/-- Greedy `p+` over a class disjoint from what follows: require at least one
character of the class, consume the maximal run, return (run, rest). -/
def takePlus (p : Char → Bool) (s : List Char) : Option (List Char × List Char) :=
  match s with
  | [] => none
  | c :: cs => if p c then some ((c :: cs).takeWhile p, (c :: cs).dropWhile p) else none

/-- Does the matcher succeed at some suffix of the input?  This is Python
`re.search`: try each start position from the left. -/
def anySuffix (m : List Char → Bool) : List Char → Bool
  | [] => m []
  | c :: cs => m (c :: cs) || anySuffix m cs

/-- Rule 1 detection, app.py line 74: `re.search(r'\b[A-Z_]+\b', code)`.
Because `[A-Z_]` is a subclass of `\w`, a match exists exactly when some
maximal word-character run consists entirely of `[A-Z_]` characters.  The
scan carries whether the previous character was a word character. -/
def capsScan : List Char → Bool → Bool
  | [], _ => false
  | c :: cs, prevWord =>
    (!prevWord && isUpperScoreChar c && ((c :: cs).takeWhile isWordChar).all isUpperScoreChar)
      || capsScan cs (isWordChar c)

def det1 (cs : List Char) : Bool := capsScan cs false

/-- After `for\s*\(` the rule-2 detection pattern `.*:.*\)` (no DOTALL) needs,
within the newline-free segment that follows, a colon with a `)` after it. -/
def colonThenParen (t : List Char) : Bool :=
  let seg := t.takeWhile (fun c => c ≠ '\n')
  let afterColon := seg.dropWhile (fun c => c ≠ ':')
  match afterColon with
  | [] => false
  | _ :: rest => rest.contains ')'

/-- One start-position attempt of the rule-2 detection pattern
`for\s*\(.*:.*\)` (app.py line 77). -/
def det2At (s : List Char) : Bool :=
  match dropLit "for".data s with
  | none => false
  | some s1 =>
    match s1.dropWhile isWsChar with
    | '(' :: t => colonThenParen t
    | _ => false

/-- Rule 2 detection, app.py line 77: `re.search(r'for\s*\(.*:.*\)', code)`. -/
def det2 (cs : List Char) : Bool := anySuffix det2At cs

/-- Python substring containment `pat in s`. -/
def containsSub (pat : List Char) (s : List Char) : Bool :=
  anySuffix (fun t => (dropLit pat t).isSome) s

/-- Rule 3 detection, app.py line 81: `"== null" in code`. -/
def det3 (cs : List Char) : Bool := containsSub "== null".data cs

/-- One start-position attempt of the rule-4 pattern
`private\s+final\s+List<\w+>\s+\w+;` (app.py line 85). -/
def det4At (s : List Char) : Bool :=
  (do
    let s1 ← dropLit "private".data s
    let (_, s2) ← takePlus isWsChar s1
    let s3 ← dropLit "final".data s2
    let (_, s4) ← takePlus isWsChar s3
    let s5 ← dropLit "List<".data s4
    let (_, s6) ← takePlus isWordChar s5
    let s7 ← dropLit ">".data s6
    let (_, s8) ← takePlus isWsChar s7
    let (_, s9) ← takePlus isWordChar s8
    let _ ← dropLit ";".data s9
    pure ()).isSome

/-- Rule 4 detection, app.py line 85. -/
def det4 (cs : List Char) : Bool := anySuffix det4At cs

/-- One start-position attempt of the rule-5 pattern
`catch\s*\(\s*Exception\s+` (app.py line 88). -/
def det5At (s : List Char) : Bool :=
  (do
    let s1 ← dropLit "catch".data s
    let s2 := s1.dropWhile isWsChar
    let s3 ← dropLit "(".data s2
    let s4 := s3.dropWhile isWsChar
    let s5 ← dropLit "Exception".data s4
    let _ ← takePlus isWsChar s5
    pure ()).isSome

/-- Rule 5 detection, app.py line 88. -/
def det5 (cs : List Char) : Bool := anySuffix det5At cs

/-- Rule 6 detection, app.py line 91: `"Vector<" in code`. -/
def det6 (cs : List Char) : Bool := containsSub "Vector<".data cs

/-- One start-position attempt of the rule-7 pattern `public\s+\w+\s+\w+\(`
(app.py line 94).  On success returns the text of capture group 1
(`\w+\s+\w+\(`) and the rest of the input after the match; all greedy
quantifiers here are maximal-munch because the classes `\s` and `\w` are
disjoint from each other and from `(`. -/
def match7At (s : List Char) : Option (List Char × List Char) := do
  let s1 ← dropLit "public".data s
  let (ws1, s2) ← takePlus isWsChar s1
  let (w1, s3) ← takePlus isWordChar s2
  let (ws2, s4) ← takePlus isWsChar s3
  let (w2, s5) ← takePlus isWordChar s4
  let s6 ← dropLit "(".data s5
  let _ := ws1
  pure (w1 ++ ws2 ++ w2 ++ ['('], s6)

/-- Rule 7 detection, app.py line 94. -/
def det7 (cs : List Char) : Bool := anySuffix (fun s => (match7At s).isSome) cs

/-- `re.sub` scanner: walk the text left to right; at each position try the
single-position matcher, which returns the replacement text and the rest of
the input after the match; on success emit the replacement and continue after
the match (non-overlapping), otherwise copy one character.  Every matcher
used here consumes at least one character on success, so running with
`fuel = length` of the input never exhausts the fuel early. -/
def subScan (m : List Char → Option (List Char × List Char)) :
    Nat → List Char → List Char
  | 0, s => s
  | _ + 1, [] => []
  | fuel + 1, c :: cs =>
    match m (c :: cs) with
    | some (rep, rest) => rep ++ subScan m fuel rest
    | none => c :: subScan m fuel cs

/-- Rule 3 rewrite match at one position: pattern `(\w+)\s*==\s*null` with
replacement `Optional.ofNullable(\1).isEmpty()` (app.py line 83).  Greedy
`\w+` and `\s*` are maximal munch: `\w`, `\s`, `=` are pairwise disjoint. -/
def match3At (s : List Char) : Option (List Char × List Char) := do
  let (w, s1) ← takePlus isWordChar s
  let s2 := s1.dropWhile isWsChar
  let s3 ← dropLit "==".data s2
  let s4 := s3.dropWhile isWsChar
  let s5 ← dropLit "null".data s4
  pure ("Optional.ofNullable(".data ++ w ++ ").isEmpty()".data, s5)

/-- Rule 3 rewrite, app.py line 83. -/
def sub3 (s : List Char) : List Char := subScan match3At s.length s

/-- Rule 7 rewrite, app.py line 96: pattern `public\s+(\w+\s+\w+\()` with
replacement `private \1`. -/
def sub7 (s : List Char) : List Char :=
  subScan (fun t => (match7At t).map (fun pr => ("private ".data ++ pr.1, pr.2))) s.length s

/-- Tail `\s*\{(.*?)\}` of the rule-2 rewrite pattern: skip the maximal
whitespace run, require `{`, and take the lazy (shortest) body up to the
first `}`.  Returns the body and the rest after the closing brace. -/
def wsThenBraceBody (v : List Char) : Option (List Char × List Char) :=
  match v.dropWhile isWsChar with
  | '{' :: vtail =>
    if vtail.contains '}' then
      some (vtail.takeWhile (fun c => c ≠ '}'), (vtail.dropWhile (fun c => c ≠ '}')).tail)
    else none
  | _ => none

/-- Can the rule-2 rewrite pattern continue with `)` at index `d` of `t`? -/
def validParenAt (t : List Char) (d : Nat) : Bool :=
  t.get? d = some ')' && (wsThenBraceBody (t.drop (d + 1))).isSome

/-- Greedy choice of group 2's closing parenthesis: the largest valid `)`
index after the colon (the second `(.*)` of the pattern is greedy). -/
def bestParen (t : List Char) (c : Nat) : Option Nat :=
  ((List.range t.length).filter (fun d => c < d && validParenAt t d)).getLast?

def validColonAt (t : List Char) (c : Nat) : Bool :=
  t.get? c = some ':' && (bestParen t c).isSome

/-- Greedy choice of group 1's colon: the largest colon index at which the
rest of the pattern can still match (the first `(.*)` is greedy and, with
`re.DOTALL`, ranges over the whole remaining text including newlines). -/
def bestColon (t : List Char) : Option Nat :=
  ((List.range t.length).filter (validColonAt t)).getLast?

/-- Rule 2 rewrite match at one position: pattern
`for\s*\((.*):(.*)\)\s*\{(.*?)\}` with `re.DOTALL` and replacement
`\2.stream().forEach(\1 -> {\3})` (app.py line 79). -/
def match2At (s : List Char) : Option (List Char × List Char) :=
  match dropLit "for".data s with
  | none => none
  | some s1 =>
    match s1.dropWhile isWsChar with
    | '(' :: t =>
      match bestColon t with
      | none => none
      | some c =>
        match bestParen t c with
        | none => none
        | some d =>
          match wsThenBraceBody (t.drop (d + 1)) with
          | none => none
          | some (g3, rest) =>
            some ((t.take d).drop (c + 1) ++ ".stream().forEach(".data ++ t.take c
                  ++ " -> \x7b".data ++ g3 ++ "\x7d)".data, rest)
    | _ => none

/-- Rule 2 rewrite, app.py line 79. -/
def sub2 (s : List Char) : List Char := subScan match2At s.length s

/-- The explanation table `guideline_explanations`, app.py lines 61-72. -/
def guideline_explanations : List (String × String) :=
  [("1", "Follow Java naming conventions."),
   ("2", "Use Java Streams and Lambdas instead of imperative loops."),
   ("3", "Use Optional<T> to avoid NullPointerException."),
   ("4", "Use defensive copying for collections."),
   ("5", "Catch specific exceptions before generic ones."),
   ("6", "Use appropriate data structures."),
   ("7", "Use private methods unless necessary."),
   ("8", "Code to interfaces instead of concrete implementations."),
   ("9", "Avoid unnecessary interfaces."),
   ("10", "Override hashCode() when overriding equals().")]

/-- Table lookup `guideline_explanations[k]`. -/
def expl (k : String) : String := (guideline_explanations.lookup k).getD ""

/-- The suggestion list as a function of the seven detection outcomes only:
each triggered rule appends exactly one line, in rule order
(app.py lines 74-95). -/
def findingsOf (b1 b2 b3 b4 b5 b6 b7 : Bool) : List String :=
  (if b1 then ["Guideline 1. " ++ expl "1"] else []) ++
  (if b2 then ["Guideline 2. " ++ expl "2"] else []) ++
  (if b3 then ["Guideline 3. " ++ expl "3"] else []) ++
  (if b4 then ["Guideline 4. " ++ expl "4"] else []) ++
  (if b5 then ["Guideline 5. " ++ expl "5"] else []) ++
  (if b6 then ["Guideline 6. " ++ expl "6"] else []) ++
  (if b7 then ["Guideline 7. " ++ expl "7"] else [])

/-- Suggestions of `best_practices_review`: every detection reads the
original text `cs`. -/
def suggestionsFor (cs : List Char) : List String :=
  findingsOf (det1 cs) (det2 cs) (det3 cs) (det4 cs) (det5 cs) (det6 cs) (det7 cs)

/-- `improved_code` of `best_practices_review`: the rewrites of triggered
rules 2, 3, 7 are applied in rule order to the accumulating text, while each
trigger test reads the original text `cs` (app.py lines 59, 77-96). -/
def improvedFor (cs : List Char) : List Char :=
  let i1 := if det2 cs then sub2 cs else cs
  let i2 := if det3 cs then sub3 i1 else i1
  if det7 cs then sub7 i2 else i2

/-- Number of rules whose detection pattern matched the input. -/
def countTriggered (cs : List Char) : Nat :=
  [det1 cs, det2 cs, det3 cs, det4 cs, det5 cs, det6 cs, det7 cs].count true

/-- The compliance-score formula with the deduction per rule evaluated:
`100 // len(guideline_explanations) = 10`. -/
def scoreFormula (n : Nat) : Int := max 0 (100 - (n : Int) * 10)

/-- `best_practices_review`, app.py lines 54-104. -/
def best_practices_review (code language : String) : String × String × Int :=
  if language ≠ "java" then
    ("Best practice checks are currently only available for Java.", code, 100)
  else
    let suggestions := suggestionsFor code.data
    let result_text :=
      if suggestions.isEmpty then "No best practice violations found."
      else String.intercalate "\n" suggestions
    let compliance_score : Int :=
      max 0 (100 - (suggestions.length : Int) * ((100 : Int) / (guideline_explanations.length : Int)))
    (result_text, String.mk (improvedFor code.data), compliance_score)

/-! ### Checkstyle output formatting (app.py lines 30-52) -/

/-- The part `:(\d+):(\d+): (.+)` of the checkstyle line pattern after the
lazy path group.  `(\d+)` is maximal munch (a maximal digit run followed by
the required `:`); `(.+)` is greedy up to the first newline (`.` excludes
newlines) and must be nonempty; `re.match` does not require the match to
reach the end of the string. -/
def parseTail (s : List Char) : Option (String × String × String) :=
  match s with
  | ':' :: s1 =>
    match takePlus isDigitChar s1 with
    | none => none
    | some (ln, s2) =>
      match s2 with
      | ':' :: s3 =>
        match takePlus isDigitChar s3 with
        | none => none
        | some (cn, s4) =>
          match s4 with
          | ':' :: ' ' :: rest =>
            let msg := rest.takeWhile (fun c => c ≠ '\n')
            if msg.isEmpty then none
            else some (String.mk ln, String.mk cn, String.mk msg)
          | _ => none
      | _ => none
  | _ => none

/-- The lazy path group `(.+?)` followed by `parseTail`: take the shortest
nonempty newline-free prefix after which the tail matches (the path itself
is discarded by the source, which binds it to `_`). -/
def parsePathRest : List Char → Option (String × String × String)
  | [] => none
  | c :: rest =>
    if c = '\n' then none
    else
      match parseTail rest with
      | some r => some r
      | none => parsePathRest rest

/-- One line of checkstyle output, app.py line 35:
`re.match(r"\[WARN\] (.+?):(\d+):(\d+): (.+)", line)`, returning the groups
(line number, column number, message); the path group is discarded. -/
def parse_line (l : List Char) : Option (String × String × String) :=
  match dropLit "[WARN] ".data l with
  | none => none
  | some s => parsePathRest s

/-- app.py line 39: `"indentation" in message.lower()` (ASCII lowering). -/
def isIndentMsg (msg : String) : Bool :=
  containsSub "indentation".data (msg.data.map Char.toLower)

/-- app.py line 45: the entry for a non-indentation diagnostic. -/
def fmtIssue (d : String × String × String) : String :=
  "Line " ++ d.1 ++ ", Column " ++ d.2.1 ++ ": " ++ d.2.2

/-- Python dict update, app.py lines 40-43: appending to the message list of
an existing line number keeps its position; a new line number is appended at
the end (insertion order). -/
def updateAssoc : List (String × List String) → String → String → List (String × List String)
  | [], ln, msg => [(ln, [msg])]
  | (k, v) :: rest, ln, msg =>
    if k = ln then (k, v ++ [msg]) :: rest else (k, v) :: updateAssoc rest ln msg

/-- Dispatch of one parsed diagnostic, app.py lines 39-45. -/
def processDiag (st : List String × List (String × List String))
    (d : String × String × String) : List String × List (String × List String) :=
  if isIndentMsg d.2.2 then (st.1, updateAssoc st.2 d.1 d.2.2)
  else (st.1 ++ [fmtIssue d], st.2)

/-- One iteration of the loop over raw lines, app.py lines 34-45. -/
def processLine (st : List String × List (String × List String)) (l : List Char) :
    List String × List (String × List String) :=
  match parse_line l with
  | none => st
  | some d => processDiag st d

/-- Python `raw_output.split("\n")`: split at every newline; splitting the
empty string yields one empty piece. -/
def splitOnNl (s : List Char) : List (List Char) :=
  match s with
  | [] => [[]]
  | c :: cs =>
    match splitOnNl cs with
    | [] => [[]]
    | r :: rs => if c = '\n' then [] :: r :: rs else (c :: r) :: rs

/-- First-seen-order deduplication, with an accumulator of already kept
elements. -/
def edfAux (seen : List String) : List String → List String
  | [] => []
  | x :: xs => if x ∈ seen then edfAux seen xs else x :: edfAux (x :: seen) xs

/-- First-seen-order deduplication. -/
def edf (l : List String) : List String := edfAux [] l

/-- app.py line 50: `', '.join(set(messages))`.  Python iterates the hash
set in an unspecified, run-dependent order; the embedding fixes the
deterministic first-seen order.  No claim depends on the order of the
deduplicated messages within one line. -/
def dedupJoin (msgs : List String) : String := String.intercalate ", " (edf msgs)

/-- app.py line 50: one summary line of the indentation section. -/
def indentEntry (p : String × List String) : String :=
  "   - Line " ++ p.1 ++ ": " ++ dedupJoin p.2

/-- `format_checkstyle_output`, app.py lines 30-52. -/
def format_checkstyle_output (raw : String) : String :=
  let st := (splitOnNl raw.data).foldl processLine ([], [])
  let issues :=
    if st.2.isEmpty then st.1
    else st.1 ++ "Indentation Issues:" :: st.2.map indentEntry
  if issues.isEmpty then "No style issues found." else String.intercalate "\n" issues

/-! ### Declarative description of the report, following the wording of the
spec (for the refinement theorems). -/

/-- All diagnostics parsed from the raw output, in emission order; lines the
pattern does not match contribute nothing. -/
def parsedDiagnostics (raw : String) : List (String × String × String) :=
  (splitOnNl raw.data).filterMap parse_line

/-- Non-indentation diagnostics, listed individually in emission order. -/
def nonIndentEntries (ds : List (String × String × String)) : List String :=
  (ds.filter (fun d => !isIndentMsg d.2.2)).map fmtIssue

/-- The indentation diagnostics in emission order. -/
def indentDiags (ds : List (String × String × String)) : List (String × String × String) :=
  ds.filter (fun d => isIndentMsg d.2.2)

/-- Affected line numbers of indentation diagnostics, in first-seen order. -/
def indentLineOrder (ds : List (String × String × String)) : List String :=
  edf ((indentDiags ds).map (fun d => d.1))

/-- Messages of the indentation diagnostics of one line number, in emission
order. -/
def msgsForLine (ds : List (String × String × String)) (ln : String) : List String :=
  ((indentDiags ds).filter (fun d => decide (d.1 = ln))).map (fun d => d.2.2)

/-- The grouped indentation table: one entry per affected line number in
first-seen order, carrying that line's messages. -/
def specAssoc (ds : List (String × String × String)) : List (String × List String) :=
  (indentLineOrder ds).map (fun ln => (ln, msgsForLine ds ln))

/-- The report as the spec describes it: non-indentation entries first in
emission order; then, if any indentation diagnostics exist, a header line
and one summary line per affected line number in first-seen order with the
messages deduplicated; the fixed no-issues message when nothing matched. -/
def renderReport (ds : List (String × String × String)) : String :=
  let others := nonIndentEntries ds
  let issues :=
    if (specAssoc ds).isEmpty then others
    else others ++ "Indentation Issues:" :: (specAssoc ds).map indentEntry
  if issues.isEmpty then "No style issues found." else String.intercalate "\n" issues

/-- Modelled from the spec: the generic diagnostic line shape
`[SEVERITY] path:line:col: message` with an arbitrary nonempty severity
token, which the spec says is matched with the severity value discarded.
The path/line/col/message tail is the same as in the source's pattern. -/
def matchesGenericDiagPattern (l : List Char) : Bool :=
  match l with
  | '[' :: rest =>
    let sev := rest.takeWhile (fun c => c ≠ ']')
    match rest.dropWhile (fun c => c ≠ ']') with
    | ']' :: ' ' :: s => !sev.isEmpty && (parsePathRest s).isSome
    | _ => false
  | _ => false

/-- Modelled from the spec: a C-style indexed loop header, i.e. a
`for (init; cond; update)` header whose parenthesised part is closed on the
same line and carries the two semicolon separators. -/
def hasCStyleLoopHeader (cs : List Char) : Bool :=
  anySuffix (fun s =>
    match dropLit "for".data s with
    | none => false
    | some s1 =>
      match s1.dropWhile isWsChar with
      | '(' :: t =>
        let line := t.takeWhile (fun c => c ≠ '\n')
        line.contains ')' && ((line.takeWhile (fun c => c ≠ ')')).count ';' == 2)
      | _ => false) cs

/-- Character of a modifier, return-type or method-name token in a method
header: word characters plus generic or array brackets. -/
def isDeclTokChar (c : Char) : Bool :=
  isWordChar c || c = '<' || c = '>' || c = '[' || c = ']'

/-- Whitespace-separated header tokens after `public`: accept when a token
is directly followed by `(` and at least one further token (the return
type) preceded it.  Each step consumes at least one character, so fuel set
to the input length never runs out early. -/
def declTokens (fuel : Nat) (s : List Char) (ntoks : Nat) : Bool :=
  match fuel with
  | 0 => false
  | fuel + 1 =>
    match takePlus isDeclTokChar s with
    | none => false
    | some (_, s1) =>
      match s1 with
      | '(' :: _ => decide (1 ≤ ntoks)
      | _ =>
        match takePlus isWsChar s1 with
        | none => false
        | some (_, s2) => declTokens fuel s2 (ntoks + 1)

/-- Modelled from the spec: a public method declaration - the keyword
`public` followed by whitespace-separated modifier and return-type tokens
and a method name (word characters, possibly carrying generic or array
brackets), the name directly followed by an opening parenthesis, with at
least two tokens after `public` (return type and name).  This covers
declarations such as `public static void main(` and `public List<String> get(`
that the source's rule-7 pattern does not match. -/
def hasPublicMethodDecl (cs : List Char) : Bool :=
  anySuffix (fun s =>
    match dropLit "public".data s with
    | none => false
    | some s1 =>
      match takePlus isWsChar s1 with
      | none => false
      | some (_, s2) => declTokens s2.length s2 0) cs

/-! ### Helper lemmas -/

theorem mem_edfAux (x : String) :
    ∀ (l seen : List String), x ∈ edfAux seen l ↔ x ∈ l ∧ x ∉ seen := by
  intro l
  induction l with
  | nil => intro seen; simp [edfAux]
  | cons y ys ih =>
    intro seen
    rw [edfAux]
    by_cases hy : y ∈ seen
    · rw [if_pos hy, ih]
      constructor
      · rintro ⟨h1, h2⟩; exact ⟨List.mem_cons_of_mem _ h1, h2⟩
      · rintro ⟨h1, h2⟩
        rcases List.mem_cons.mp h1 with rfl | h1
        · exact absurd hy h2
        · exact ⟨h1, h2⟩
    · rw [if_neg hy]
      rw [List.mem_cons, ih]
      constructor
      · rintro (rfl | ⟨h1, h2⟩)
        · exact ⟨List.mem_cons_self _ _, hy⟩
        · exact ⟨List.mem_cons_of_mem _ h1, fun hs => h2 (List.mem_cons_of_mem _ hs)⟩
      · rintro ⟨h1, h2⟩
        by_cases hxy : x = y
        · exact Or.inl hxy
        · rcases List.mem_cons.mp h1 with rfl | h1
          · exact absurd rfl hxy
          · refine Or.inr ⟨h1, fun hs => ?_⟩
            rcases List.mem_cons.mp hs with h | h
            · exact hxy h
            · exact h2 h

theorem nodup_edfAux : ∀ (l seen : List String), (edfAux seen l).Nodup := by
  intro l
  induction l with
  | nil => intro seen; simp [edfAux]
  | cons y ys ih =>
    intro seen
    rw [edfAux]
    by_cases hy : y ∈ seen
    · rw [if_pos hy]; exact ih seen
    · rw [if_neg hy]
      refine List.nodup_cons.mpr ⟨fun hmem => ?_, ih (y :: seen)⟩
      exact ((mem_edfAux y ys (y :: seen)).mp hmem).2 (List.mem_cons_self y seen)

theorem edfAux_append_singleton :
    ∀ (l seen : List String) (x : String),
      edfAux seen (l ++ [x]) =
        edfAux seen l ++ (if x ∈ seen ∨ x ∈ l then [] else [x]) := by
  intro l
  induction l with
  | nil =>
    intro seen x
    by_cases hx : x ∈ seen <;> simp [edfAux, hx]
  | cons y ys ih =>
    intro seen x
    simp only [List.cons_append, edfAux, List.append_eq]
    by_cases hy : y ∈ seen
    · rw [if_pos hy, if_pos hy, ih]
      have hcond : (x ∈ seen ∨ x ∈ ys) = (x ∈ seen ∨ x ∈ y :: ys) := by
        by_cases hx : x = y
        · subst hx; simp [eq_iff_iff, hy]
        · simp [eq_iff_iff, List.mem_cons, hx]
      simp only [hcond]
    · rw [if_neg hy, if_neg hy, ih]
      have hcond : (x ∈ y :: seen ∨ x ∈ ys) = (x ∈ seen ∨ x ∈ y :: ys) := by
        by_cases hx : x = y
        · subst hx; simp [eq_iff_iff]
        · simp [eq_iff_iff, List.mem_cons, hx]
      simp only [hcond]
      simp

theorem mem_edf (x : String) (l : List String) : x ∈ edf l ↔ x ∈ l := by
  rw [edf, mem_edfAux]; simp

theorem nodup_edf (l : List String) : (edf l).Nodup := nodup_edfAux l []

theorem edf_append_singleton (l : List String) (x : String) :
    edf (l ++ [x]) = edf l ++ (if x ∈ l then [] else [x]) := by
  rw [edf, edf, edfAux_append_singleton]
  simp

theorem map_pair_no_update (L : List String) (m : String → List String)
    (ln msg : String) (h : ln ∉ L) :
    L.map (fun k => (k, m k ++ if k = ln then [msg] else [])) =
      L.map (fun k => (k, m k)) := by
  induction L with
  | nil => rfl
  | cons x xs ih =>
    simp only [List.map_cons]
    have hx : ¬ x = ln := by rintro rfl; exact h (List.mem_cons_self _ _)
    rw [if_neg hx, List.append_nil,
      ih (fun hm => h (List.mem_cons_of_mem _ hm))]

theorem updateAssoc_map_mem (L : List String) (m : String → List String)
    (ln msg : String) (hmem : ln ∈ L) (hnd : L.Nodup) :
    updateAssoc (L.map fun k => (k, m k)) ln msg =
      L.map (fun k => (k, m k ++ if k = ln then [msg] else [])) := by
  induction L with
  | nil => cases hmem
  | cons x xs ih =>
    simp only [List.map_cons, updateAssoc]
    by_cases hx : x = ln
    · subst hx
      rw [if_pos rfl, if_pos rfl]
      have hnotin : x ∉ xs := (List.nodup_cons.mp hnd).1
      rw [map_pair_no_update xs m x msg hnotin]
    · rw [if_neg hx, if_neg hx]
      have hmem' : ln ∈ xs := by
        rcases List.mem_cons.mp hmem with rfl | h
        · exact absurd rfl hx
        · exact h
      rw [ih hmem' (List.nodup_cons.mp hnd).2, List.append_nil]

theorem updateAssoc_map_not_mem (L : List String) (m : String → List String)
    (ln msg : String) (h : ln ∉ L) :
    updateAssoc (L.map fun k => (k, m k)) ln msg =
      (L.map fun k => (k, m k)) ++ [(ln, [msg])] := by
  induction L with
  | nil => rfl
  | cons x xs ih =>
    simp only [List.map_cons, updateAssoc]
    have hx : ¬ x = ln := by rintro rfl; exact h (List.mem_cons_self _ _)
    rw [if_neg hx, ih (fun hm => h (List.mem_cons_of_mem _ hm))]
    simp

theorem nonIndentEntries_append (ds : List (String × String × String))
    (d : String × String × String) :
    nonIndentEntries (ds ++ [d]) =
      nonIndentEntries ds ++ (if isIndentMsg d.2.2 then [] else [fmtIssue d]) := by
  unfold nonIndentEntries
  rw [List.filter_append]
  cases h : isIndentMsg d.2.2 <;> simp [h]

theorem indentDiags_append (ds : List (String × String × String))
    (d : String × String × String) :
    indentDiags (ds ++ [d]) =
      indentDiags ds ++ (if isIndentMsg d.2.2 then [d] else []) := by
  unfold indentDiags
  rw [List.filter_append]
  cases h : isIndentMsg d.2.2 <;> simp [h]

theorem msgsForLine_append (ds : List (String × String × String))
    (d : String × String × String) (ln : String) :
    msgsForLine (ds ++ [d]) ln =
      msgsForLine ds ln ++
        (if isIndentMsg d.2.2 = true ∧ d.1 = ln then [d.2.2] else []) := by
  unfold msgsForLine
  rw [indentDiags_append]
  cases h1 : isIndentMsg d.2.2 <;> by_cases h2 : d.1 = ln <;>
    simp [h1, h2, List.filter_append]

theorem indentLineOrder_append (ds : List (String × String × String))
    (d : String × String × String) :
    indentLineOrder (ds ++ [d]) =
      indentLineOrder ds ++
        (if isIndentMsg d.2.2 = true ∧ d.1 ∉ (indentDiags ds).map (fun x => x.1)
         then [d.1] else []) := by
  unfold indentLineOrder
  rw [indentDiags_append]
  by_cases h1 : isIndentMsg d.2.2 = true
  · rw [if_pos h1, List.map_append]
    simp only [List.map_cons, List.map_nil]
    rw [edf_append_singleton]
    by_cases h2 : d.1 ∈ (indentDiags ds).map (fun x => x.1)
    · rw [if_pos h2, if_neg (by simp [h2])]
    · rw [if_neg h2, if_pos ⟨h1, h2⟩]
  · rw [if_neg h1, if_neg (fun hc => h1 hc.1)]
    simp

theorem msgsForLine_eq_nil (ds : List (String × String × String)) (ln : String)
    (h : ln ∉ (indentDiags ds).map (fun x => x.1)) :
    msgsForLine ds ln = [] := by
  unfold msgsForLine
  rw [List.map_eq_nil_iff]
  rw [List.filter_eq_nil_iff]
  intro d hd
  simp only [decide_eq_true_eq]
  intro heq
  exact h (heq ▸ List.mem_map_of_mem _ hd)

theorem specAssoc_append_indent (ds : List (String × String × String))
    (d : String × String × String) (h1 : isIndentMsg d.2.2 = true) :
    specAssoc (ds ++ [d]) = updateAssoc (specAssoc ds) d.1 d.2.2 := by
  unfold specAssoc
  by_cases h2 : d.1 ∈ (indentDiags ds).map (fun x => x.1)
  · rw [indentLineOrder_append, if_neg (by simp [h2]), List.append_nil]
    have hmem : d.1 ∈ indentLineOrder ds := by
      rw [indentLineOrder, mem_edf]; exact h2
    rw [updateAssoc_map_mem _ _ _ _ hmem (nodup_edf _)]
    apply List.map_congr_left
    intro k hk
    rw [msgsForLine_append]
    by_cases hkd : k = d.1
    · subst hkd; rw [if_pos ⟨h1, rfl⟩, if_pos rfl]
    · rw [if_neg (fun hc => hkd hc.2.symm), if_neg hkd, List.append_nil]
  · rw [indentLineOrder_append, if_pos ⟨h1, h2⟩]
    have hnmem : d.1 ∉ indentLineOrder ds := fun hm => h2 ((mem_edf _ _).mp hm)
    rw [List.map_append, updateAssoc_map_not_mem _ _ _ _ hnmem]
    congr 1
    · apply List.map_congr_left
      intro k hk
      rw [msgsForLine_append]
      have hkd : ¬ d.1 = k := fun he => hnmem (he ▸ hk)
      rw [if_neg (fun hc => hkd hc.2), List.append_nil]
    · simp only [List.map_cons, List.map_nil]
      rw [msgsForLine_append, msgsForLine_eq_nil ds d.1 h2, if_pos ⟨h1, rfl⟩]
      simp

theorem specAssoc_append_nonindent (ds : List (String × String × String))
    (d : String × String × String) (h1 : isIndentMsg d.2.2 = false) :
    specAssoc (ds ++ [d]) = specAssoc ds := by
  unfold specAssoc
  rw [indentLineOrder_append, if_neg (by simp [h1]), List.append_nil]
  apply List.map_congr_left
  intro k hk
  rw [msgsForLine_append, if_neg (by simp [h1]), List.append_nil]

theorem foldl_processDiag_spec (ds : List (String × String × String)) :
    ds.foldl processDiag ([], []) = (nonIndentEntries ds, specAssoc ds) := by
  refine List.reverseRecOn ds rfl ?_
  intro l d ih
  rw [List.foldl_append, ih, List.foldl_cons, List.foldl_nil]
  unfold processDiag
  by_cases h1 : isIndentMsg d.2.2 = true
  · rw [if_pos h1, nonIndentEntries_append, if_pos h1, List.append_nil,
      specAssoc_append_indent _ _ h1]
  · have h1' : isIndentMsg d.2.2 = false := by simpa using h1
    rw [if_neg h1, nonIndentEntries_append, if_neg h1,
      specAssoc_append_nonindent _ _ h1']

theorem foldl_processLine_eq (ls : List (List Char)) :
    ∀ st, ls.foldl processLine st = (ls.filterMap parse_line).foldl processDiag st := by
  induction ls with
  | nil => intro st; rfl
  | cons l ls ih =>
    intro st
    rw [List.foldl_cons, List.filterMap_cons]
    cases h : parse_line l
    · simp only [processLine, h]
      rw [ih]
    · simp only [processLine, h]
      rw [List.foldl_cons, ih]

theorem format_eq_render (raw : String) :
    format_checkstyle_output raw = renderReport (parsedDiagnostics raw) := by
  simp only [format_checkstyle_output, renderReport, parsedDiagnostics]
  rw [foldl_processLine_eq, foldl_processDiag_spec]

theorem length_findingsOf (b1 b2 b3 b4 b5 b6 b7 : Bool) :
    (findingsOf b1 b2 b3 b4 b5 b6 b7).length =
      [b1, b2, b3, b4, b5, b6, b7].count true := by
  cases b1 <;> cases b2 <;> cases b3 <;> cases b4 <;> cases b5 <;> cases b6 <;>
    cases b7 <;> rfl

theorem length_suggestionsFor (cs : List Char) :
    (suggestionsFor cs).length = countTriggered cs :=
  length_findingsOf _ _ _ _ _ _ _

theorem mk_data (s : String) : String.mk s.data = s := rfl

theorem bpr_java_eq (code : String) :
    best_practices_review code "java" =
      (if (suggestionsFor code.data).isEmpty then "No best practice violations found."
       else String.intercalate "\n" (suggestionsFor code.data),
       String.mk (improvedFor code.data),
       scoreFormula (countTriggered code.data)) := by
  have hne : ¬ ("java" : String) ≠ "java" := by simp
  have hlen : guideline_explanations.length = 10 := rfl
  simp only [best_practices_review, if_neg hne, hlen]
  rw [Prod.mk.injEq, Prod.mk.injEq]
  refine ⟨rfl, rfl, ?_⟩
  rw [length_suggestionsFor]
  norm_num [scoreFormula]

theorem scoreFormula_nonneg (n : Nat) : 0 ≤ scoreFormula n := le_max_left 0 _

theorem scoreFormula_le_100 (n : Nat) : scoreFormula n ≤ 100 := by
  unfold scoreFormula
  apply max_le (by norm_num)
  have h : (0 : Int) ≤ (n : Int) * 10 := by positivity
  omega

theorem scoreFormula_anti {m n : Nat} (h : m ≤ n) : scoreFormula n ≤ scoreFormula m := by
  unfold scoreFormula
  apply max_le_max (le_refl 0)
  have h2 : (m : Int) ≤ (n : Int) := by exact_mod_cast h
  omega

theorem scoreFormula_noclamp {n : Nat} (h : n ≤ 7) :
    scoreFormula n = 100 - (n : Int) * 10 := by
  unfold scoreFormula
  have h2 : (n : Int) ≤ 7 := by exact_mod_cast h
  exact max_eq_right (by omega)

theorem countTriggered_le_seven (cs : List Char) : countTriggered cs ≤ 7 := by
  unfold countTriggered
  have h := List.count_le_length true
    [det1 cs, det2 cs, det3 cs, det4 cs, det5 cs, det6 cs, det7 cs]
  simpa using h

theorem dropLit_some (p : List Char) :
    ∀ (s r : List Char), dropLit p s = some r → s = p ++ r := by
  induction p with
  | nil =>
    intro s r h
    simp only [dropLit, Option.some.injEq] at h
    simp [h]
  | cons c cs ih =>
    intro s r h
    cases s with
    | nil => simp [dropLit] at h
    | cons d ds =>
      simp only [dropLit] at h
      split at h
      · next hc =>
        subst hc
        rw [List.cons_append]
        rw [ih ds r h]
      · cases h

theorem parse_line_not_warn (l : List Char)
    (h : ∀ r : List Char, l ≠ "[WARN] ".data ++ r) :
    parse_line l = none := by
  unfold parse_line
  cases hd : dropLit "[WARN] ".data l with
  | none => rfl
  | some s => exact absurd (dropLit_some _ _ _ hd) (h s)

/-! ### Claim theorems -/

/-- C1: for every Java-language input the compliance score returned by
`best_practices_review` equals
`max(0, 100 - triggeredCount * floor(100 / totalGuidelineSlots))`, where
`triggeredCount` counts the rules whose detection pattern matched the
original input and `totalGuidelineSlots` is the size of the explanation
table, namely 10, independent of how many slots have wired detection. -/
theorem c1_compliance_score_formula (code : String) :
    (best_practices_review code "java").2.2 =
      max 0 (100 - (countTriggered code.data : Int) *
        ((100 : Int) / (guideline_explanations.length : Int))) ∧
    guideline_explanations.length = 10 := by
  constructor
  · rw [bpr_java_eq]
    norm_num [scoreFormula, guideline_explanations]
  · rfl

/-- C2: every rule's detection predicate reads the pristine original input
(the findings are a function of the seven detections of the original text
only), while the rewrites of triggered rules 2, 3 and 7 are applied
sequentially in rule order to the accumulating rewritten text; on the
concrete example where rules 3 and 7 both trigger, the final text carries
both edits. -/
theorem c2_detection_pristine_rewrites_stack :
    (∀ code : String,
      (best_practices_review code "java").2.1 =
        String.mk ((fun t => if det7 code.data then sub7 t else t)
          ((fun t => if det3 code.data then sub3 t else t)
            ((fun t => if det2 code.data then sub2 t else t) code.data)))) ∧
    (∀ code : String,
      (best_practices_review code "java").1 =
        (if (findingsOf (det1 code.data) (det2 code.data) (det3 code.data)
              (det4 code.data) (det5 code.data) (det6 code.data)
              (det7 code.data)).isEmpty
         then "No best practice violations found."
         else String.intercalate "\n"
           (findingsOf (det1 code.data) (det2 code.data) (det3 code.data)
             (det4 code.data) (det5 code.data) (det6 code.data)
             (det7 code.data)))) ∧
    det3 "public int check(Data d) { if (d == null) { fail(); } return 0; }".data = true ∧
    det7 "public int check(Data d) { if (d == null) { fail(); } return 0; }".data = true ∧
    (best_practices_review
        "public int check(Data d) { if (d == null) { fail(); } return 0; }" "java").2.1 =
      "private int check(Data d) { if (Optional.ofNullable(d).isEmpty()) { fail(); } return 0; }" := by
  refine ⟨?_, ?_, by decide, by decide, by decide⟩
  · intro code
    rw [bpr_java_eq]
    rfl
  · intro code
    rw [bpr_java_eq]
    rfl

/-- C3 counterexample: this raw line matches the generic
`[SEVERITY] path:line:col: message` shape (severity ERROR), yet
`format_checkstyle_output` drops it and reports no issues, so it is not the
case that a line of any severity is parsed into a diagnostic. -/
theorem c3_counterexample :
    matchesGenericDiagPattern "[ERROR] A.java:3:5: bad".data = true ∧
    format_checkstyle_output "[ERROR] A.java:3:5: bad" = "No style issues found." :=
  ⟨by decide, by decide⟩

/-- C3 amended: only raw lines beginning with the fixed token "[WARN] " and
matching `[WARN] path:line:col: message` are parsed into diagnostics (the
severity is fixed to WARN and its text discarded); every other line —
including diagnostics of any other severity — is silently dropped and
contributes nothing to the accumulated report state. -/
theorem c3_amended_warn_only :
    (∀ l : List Char, (∀ r : List Char, l ≠ "[WARN] ".data ++ r) →
      parse_line l = none) ∧
    parse_line "[WARN] A.java:3:5: bad thing".data = some ("3", "5", "bad thing") ∧
    parse_line "[ERROR] A.java:3:5: bad thing".data = none ∧
    (∀ (st : List String × List (String × List String)) (l : List Char),
      parse_line l = none → processLine st l = st) := by
  refine ⟨parse_line_not_warn, by decide, by decide, ?_⟩
  intro st l h
  simp only [processLine, h]

/-- Witness for C3's amended theorem at concrete inputs. -/
theorem c3_amended_witness :
    parse_line "[ERROR] A.java:3:5: bad thing".data = none ∧
    processLine ([], []) "junk".data = ([], []) := by
  constructor
  · apply c3_amended_warn_only.1
    intro r hr
    have h7 := congrArg (List.take 7) hr
    rw [show (7 : Nat) = ("[WARN] ".data).length from by decide] at h7
    rw [List.take_left] at h7
    exact absurd h7 (by decide)
  · exact c3_amended_warn_only.2.2.2 ([], []) "junk".data (by decide)

/-- C4 counterexample: this Java input contains a C-style indexed loop
header, yet `best_practices_review` emits no suggestion at all (in
particular no Guideline 2 suggestion) and leaves the text unchanged,
because rule 2's pattern requires a colon inside the header. -/
theorem c4_counterexample :
    hasCStyleLoopHeader "for (int i = 0; i < 10; i++) { sum += i; }".data = true ∧
    best_practices_review "for (int i = 0; i < 10; i++) { sum += i; }" "java" =
      ("No best practice violations found.",
       "for (int i = 0; i < 10; i++) { sum += i; }", 100) :=
  ⟨by decide, by decide⟩

/-- C4 amended: rule 2 triggers exactly when its detection pattern
`for\s*\(.*:.*\)` matches — an enhanced for-each style loop header
containing a colon, not a C-style indexed loop header; a triggered rule 2
emits the Guideline 2 suggestion and applies the best-effort loop-to-stream
rewrite to the text before the rule 3 and rule 7 rewrites. -/
theorem c4_amended_colon_loop (code : String) (h : det2 code.data = true) :
    "Guideline 2. Use Java Streams and Lambdas instead of imperative loops." ∈
      suggestionsFor code.data ∧
    (best_practices_review code "java").2.1 =
      String.mk ((fun t => if det7 code.data then sub7 t else t)
        ((fun t => if det3 code.data then sub3 t else t) (sub2 code.data))) := by
  constructor
  · have hg : "Guideline 2. " ++ expl "2" =
        "Guideline 2. Use Java Streams and Lambdas instead of imperative loops." := by
      decide
    unfold suggestionsFor findingsOf
    refine List.mem_append_left _ (List.mem_append_left _ (List.mem_append_left _
      (List.mem_append_left _ (List.mem_append_left _ (List.mem_append_right _ ?_)))))
    rw [if_pos h]
    simp [hg]
  · rw [bpr_java_eq]
    simp [improvedFor, h]

/-- Witness for C4's amended theorem at a concrete for-each input. -/
theorem c4_amended_witness :
    det2 "for (String s : items) { use(s); }".data = true ∧
    ("Guideline 2. Use Java Streams and Lambdas instead of imperative loops." ∈
        suggestionsFor "for (String s : items) { use(s); }".data ∧
      (best_practices_review "for (String s : items) { use(s); }" "java").2.1 =
        String.mk ((fun t => if det7 "for (String s : items) { use(s); }".data
            then sub7 t else t)
          ((fun t => if det3 "for (String s : items) { use(s); }".data
            then sub3 t else t)
            (sub2 "for (String s : items) { use(s); }".data)))) :=
  ⟨by decide, c4_amended_colon_loop "for (String s : items) { use(s); }" (by decide)⟩

/-- C5 counterexample: `public static void main(String[] a) { }` contains a
public method declaration, yet rule 7 does not trigger on it - no
suggestion at all, text unchanged, score 100 - because the detection
pattern `public\s+\w+\s+\w+\(` requires exactly two word tokens between
`public` and `(`; moreover, on an input holding both `public void run(`
and `public static void main(`, rule 7 fires but the rewrite narrows only
the former, so the rewritten text still contains the un-narrowed public
declaration and "rewrites every public method declaration" fails as well. -/
theorem c5_counterexample :
    hasPublicMethodDecl "public static void main(String[] a) { }".data = true ∧
    best_practices_review "public static void main(String[] a) { }" "java" =
      ("No best practice violations found.",
       "public static void main(String[] a) { }", 100) ∧
    hasPublicMethodDecl
      "class A { public void run() { } public static void main(String[] a) { } }".data = true ∧
    best_practices_review
        "class A { public void run() { } public static void main(String[] a) { } }"
        "java" =
      ("Guideline 1. Follow Java naming conventions.\nGuideline 7. Use private methods unless necessary.",
       "class A { private void run() { } public static void main(String[] a) { } }",
       80) ∧
    containsSub "public static void main(".data
      (best_practices_review
        "class A { public void run() { } public static void main(String[] a) { } }"
        "java").2.1.data = true :=
  ⟨by decide, by decide, by decide, by decide, by decide⟩

/-- C5 amended: for every Java input on which rule 7's detection pattern
`public\s+\w+\s+\w+\(` matches - the keyword `public` followed by exactly
two word tokens and an opening parenthesis, a proper subset of the public
method declarations - rule 7 triggers: it emits the Guideline 7 suggestion,
and the visibility-narrowing rewrite `public\s+(\w+\s+\w+\() -> private \1`
is applied to every occurrence of that pattern as the last rewrite; on the
claim's example exactly rules 1 and 7 trigger, the score is 80, and
`public void run(` is narrowed to `private void run(`. -/
theorem c5_amended_pattern_narrowing :
    (∀ code : String, det7 code.data = true →
      "Guideline 7. Use private methods unless necessary." ∈
        suggestionsFor code.data ∧
      (best_practices_review code "java").2.1 =
        String.mk (sub7 ((fun t => if det3 code.data then sub3 t else t)
          ((fun t => if det2 code.data then sub2 t else t) code.data)))) ∧
    best_practices_review
        "class Config { static final int MAX_SIZE = 10; public void run() { go(); } }"
        "java" =
      ("Guideline 1. Follow Java naming conventions.\nGuideline 7. Use private methods unless necessary.",
       "class Config { static final int MAX_SIZE = 10; private void run() { go(); } }",
       80) := by
  constructor
  · intro code h
    constructor
    · have hg : "Guideline 7. " ++ expl "7" =
          "Guideline 7. Use private methods unless necessary." := by decide
      unfold suggestionsFor findingsOf
      refine List.mem_append_right _ ?_
      rw [if_pos h]
      simp [hg]
    · rw [bpr_java_eq]
      simp [improvedFor, h]
  · decide

/-- Witness for C5's amended theorem at the claim's example input. -/
theorem c5_amended_witness :
    det7 "class Config { static final int MAX_SIZE = 10; public void run() { go(); } }".data = true ∧
    ("Guideline 7. Use private methods unless necessary." ∈
        suggestionsFor
          "class Config { static final int MAX_SIZE = 10; public void run() { go(); } }".data ∧
      (best_practices_review
          "class Config { static final int MAX_SIZE = 10; public void run() { go(); } }"
          "java").2.1 =
        String.mk (sub7 ((fun t =>
            if det3 "class Config { static final int MAX_SIZE = 10; public void run() { go(); } }".data
            then sub3 t else t)
          ((fun t =>
            if det2 "class Config { static final int MAX_SIZE = 10; public void run() { go(); } }".data
            then sub2 t else t)
            "class Config { static final int MAX_SIZE = 10; public void run() { go(); } }".data)))) :=
  ⟨by decide,
   c5_amended_pattern_narrowing.1
     "class Config { static final int MAX_SIZE = 10; public void run() { go(); } }"
     (by decide)⟩

/-- C6: `format_checkstyle_output` renders exactly the spec-shaped report:
non-indentation diagnostics first, as individual `Line L, Column C: message`
entries in emission order; then, if any indentation diagnostics exist, a
header line and one summary line per affected line number in first-seen
order, with the messages of each line deduplicated; and the fixed
no-issues message when no line matched. -/
theorem c6_report_structure :
    (∀ raw : String,
      format_checkstyle_output raw = renderReport (parsedDiagnostics raw)) ∧
    (∀ raw : String, parsedDiagnostics raw = [] →
      format_checkstyle_output raw = "No style issues found.") := by
  refine ⟨format_eq_render, ?_⟩
  intro raw h
  rw [format_eq_render, h]
  rfl

/-- Witness for C6 at a raw output with no matching diagnostic line. -/
theorem c6_witness :
    format_checkstyle_output "no diagnostics here" = "No style issues found." :=
  c6_report_structure.2 "no diagnostics here" (by decide)

/-- C7: the compliance score is an integer in [0, 100] for every input and
language, equals the deduction formula on Java inputs, that formula is
monotonically non-increasing in the number of triggered rules and clamped
at zero from below, and zero triggered rules score 100. -/
theorem c7_score_invariants :
    (∀ code language : String,
      0 ≤ (best_practices_review code language).2.2 ∧
      (best_practices_review code language).2.2 ≤ 100) ∧
    (∀ code : String,
      (best_practices_review code "java").2.2 =
        scoreFormula (countTriggered code.data)) ∧
    (∀ m n : Nat, m ≤ n → scoreFormula n ≤ scoreFormula m) ∧
    (∀ n : Nat, 0 ≤ scoreFormula n) ∧
    scoreFormula 0 = 100 ∧
    (∀ code : String, countTriggered code.data = 0 →
      (best_practices_review code "java").2.2 = 100) := by
  have hjava : ∀ code : String,
      (best_practices_review code "java").2.2 =
        scoreFormula (countTriggered code.data) := by
    intro code; rw [bpr_java_eq]
  refine ⟨?_, hjava, fun m n h => scoreFormula_anti h, scoreFormula_nonneg,
    by norm_num [scoreFormula], ?_⟩
  · intro code language
    by_cases hl : language = "java"
    · subst hl
      rw [hjava]
      exact ⟨scoreFormula_nonneg _, scoreFormula_le_100 _⟩
    · have hu : best_practices_review code language =
          ("Best practice checks are currently only available for Java.", code, 100) := by
        simp [best_practices_review, hl]
      rw [hu]
      exact ⟨by norm_num, by norm_num⟩
  · intro code h
    rw [hjava, h]
    norm_num [scoreFormula]

/-- Witness for C7 at concrete inputs. -/
theorem c7_witness :
    (0 ≤ (best_practices_review "int x = 1;" "java").2.2 ∧
      (best_practices_review "int x = 1;" "java").2.2 ≤ 100) ∧
    scoreFormula 3 ≤ scoreFormula 1 ∧
    (best_practices_review "int x = 1;" "java").2.2 = 100 :=
  ⟨c7_score_invariants.1 "int x = 1;" "java",
   c7_score_invariants.2.2.1 1 3 (by decide),
   c7_score_invariants.2.2.2.2.2 "int x = 1;" (by decide)⟩

/-- C8: when none of the seven detection patterns matches the Java input,
`best_practices_review` returns the no-violations message, the input text
unchanged, and score 100. -/
theorem c8_no_trigger_identity (code : String)
    (h1 : det1 code.data = false) (h2 : det2 code.data = false)
    (h3 : det3 code.data = false) (h4 : det4 code.data = false)
    (h5 : det5 code.data = false) (h6 : det6 code.data = false)
    (h7 : det7 code.data = false) :
    best_practices_review code "java" =
      ("No best practice violations found.", code, 100) := by
  rw [bpr_java_eq]
  have hs : suggestionsFor code.data = [] := by
    unfold suggestionsFor findingsOf
    simp [h1, h2, h3, h4, h5, h6, h7]
  have hi : improvedFor code.data = code.data := by
    unfold improvedFor
    simp [h2, h3, h7]
  have hc : countTriggered code.data = 0 := by
    unfold countTriggered
    simp [h1, h2, h3, h4, h5, h6, h7]
  rw [hs, hi, hc, mk_data]
  norm_num [scoreFormula]

/-- Witness for C8 at a concrete input that triggers no rule. -/
theorem c8_witness :
    det1 "int x = 1;".data = false ∧ det2 "int x = 1;".data = false ∧
    det3 "int x = 1;".data = false ∧ det4 "int x = 1;".data = false ∧
    det5 "int x = 1;".data = false ∧ det6 "int x = 1;".data = false ∧
    det7 "int x = 1;".data = false ∧
    best_practices_review "int x = 1;" "java" =
      ("No best practice violations found.", "int x = 1;", 100) :=
  ⟨by decide, by decide, by decide, by decide, by decide, by decide, by decide,
   c8_no_trigger_identity "int x = 1;" (by decide) (by decide) (by decide)
     (by decide) (by decide) (by decide) (by decide)⟩

/-- C9: for every input whose language tag is not "java",
`best_practices_review` returns the fixed unsupported-language message, the
input text unchanged, and score 100. -/
theorem c9_unsupported_language (code language : String) (h : language ≠ "java") :
    best_practices_review code language =
      ("Best practice checks are currently only available for Java.", code, 100) := by
  simp [best_practices_review, h]

/-- Witness for C9 at a concrete non-java language tag. -/
theorem c9_witness :
    best_practices_review "int x = 1;" "python" =
      ("Best practice checks are currently only available for Java.",
       "int x = 1;", 100) :=
  c9_unsupported_language "int x = 1;" "python" (by decide)

/-- C10: at most 7 of the 10 guideline slots can trigger (slots 8-10 have
no wired detection), so the compliance score is always at least 30 and the
clamp at zero is unreachable: the score equals the unclamped difference. -/
theorem c10_clamp_unreachable (code : String) :
    countTriggered code.data ≤ 7 ∧
    (best_practices_review code "java").2.2 =
      100 - (countTriggered code.data : Int) * 10 ∧
    30 ≤ (best_practices_review code "java").2.2 ∧
    guideline_explanations.length = 10 := by
  have hle := countTriggered_le_seven code.data
  have hscore : (best_practices_review code "java").2.2 =
      scoreFormula (countTriggered code.data) := by
    rw [bpr_java_eq]
  refine ⟨hle, ?_, ?_, rfl⟩
  · rw [hscore, scoreFormula_noclamp hle]
  · rw [hscore, scoreFormula_noclamp hle]
    have h7 : ((countTriggered code.data : Int)) ≤ 7 := by exact_mod_cast hle
    omega

end AppEmbed
